import Mathlib

/-!
Shallow embedding of the zen5 optimizer memory interposer
(src/src/memory/hugepage_wrapper.cpp, src/src/zen5_optimizer.cpp,
src/src/config.h) and the CPU capability gate (cpu_validator.cpp).

Machine integers are modelled as Nat/Int; the cast (size_t)st.st_size is
modelled explicitly modulo 2^64.  Effectful primitives (fstat, the two
anonymous allocations, pread, the real munmap) are modelled as oracles
supplied in an environment record, and the interposed functions are pure
state transformers on the allocation-tracker list that also report which
internal calls to the real primitives they performed.
-/

namespace zen5_turbo

/-- Configuration constant ENABLE_HUGEPAGES from config.h. -/
def ENABLE_HUGEPAGES : Bool := true

/-- Configuration constant MIN_SIZE_FOR_HUGEPAGES from config.h: 1 GiB. -/
def MIN_SIZE_FOR_HUGEPAGES : Nat := 1 * 1024 * 1024 * 1024

/-- Embedding of the C cast (size_t)v for a signed 64-bit value v. -/
def sizeTCast (v : Int) : Nat := (v % (2 : Int) ^ 64).toNat

/-- Decision function should_use_hugepages from hugepage_wrapper.cpp:
under ENABLE_HUGEPAGES it tests the length against the threshold and
ignores the descriptor argument. -/
def should_use_hugepages (fd : Int) (length : Nat) : Bool :=
  if ENABLE_HUGEPAGES then decide (MIN_SIZE_FOR_HUGEPAGES ≤ length) else false

/-- The allocation tracker: the global linked list of
HugePageAllocation nodes, head first, each node being a
(base address, size) pair. -/
abbrev Tracker := List (Nat × Nat)

/-- Embedding of track_allocation: a new node is pushed at the head of
the list. -/
def track_allocation (addr size : Nat) (tr : Tracker) : Tracker :=
  (addr, size) :: tr

/-- Embedding of untrack_allocation: remove the first node whose address
matches and return its size, or return 0 leaving the list as it was. -/
def untrack_allocation (addr : Nat) : Tracker → Nat × Tracker
  | [] => (0, [])
  | (a, s) :: rest =>
    if a = addr then (s, rest)
    else
      let r := untrack_allocation addr rest
      (r.1, (a, s) :: r.2)

/-- Embedding of cleanup_hugepage_allocations: the loop frees every
tracker node and performs no other call; the second component records the
(address, size) pairs passed to the real munmap during the loop, which is
none, since the source loop only calls free on the nodes. -/
def cleanup_hugepage_allocations : Tracker → Tracker × List (Nat × Nat)
  | [] => ([], [])
  | _ :: rest => cleanup_hugepage_allocations rest

/-- Embedding of the destructor zen5_optimizer_fini from
zen5_optimizer.cpp: it runs cleanup_hugepage_allocations on the tracker
(banner output aside). -/
def zen5_optimizer_fini (tr : Tracker) : Tracker × List (Nat × Nat) :=
  cleanup_hugepage_allocations tr

/-- Result of one run of the copy-in while loop. -/
inductive CopyResult where
  | ok (total : Nat)
  | readError (total : Nat)
  | eofError (total : Nat)
  | stuck
  deriving DecidableEq, Repr

/-- One positioned read issued by the copy-in loop: dst is the cursor
into the destination region (huge_mem + dst), src the absolute file
position passed to pread, cnt the requested byte count. -/
structure ReadCall where
  dst : Nat
  src : Int
  cnt : Nat
  deriving DecidableEq, Repr

/-- The chunk constant of the copy-in loop (256 MB in the source). -/
def chunk_size : Nat := 256 * 1024 * 1024

/-- Embedding of the copy-in while loop of the intercepted mmap.  The
pread oracle maps (file position, requested count) to the returned byte
count (negative for an error).  The fuel argument is an artifact making
the recursion structural; since every continuing iteration reads at least
one byte, fuel length + 1 can never run out (proved below), and the
stuck result is unreachable from copy_file_contents. -/
def copyLoopF (pread : Int → Nat → Int) (length : Nat) (offset : Int) :
    Nat → Nat → CopyResult × List ReadCall
  | 0, total => if total < length then (.stuck, []) else (.ok total, [])
  | fuel + 1, total =>
    if total < length then
      let toRead := if length - total < chunk_size then length - total else chunk_size
      let call : ReadCall := ⟨total, offset + (total : Int), toRead⟩
      let br := pread (offset + (total : Int)) toRead
      if br < 0 then (.readError total, [call])
      else if br = 0 then (.eofError total, [call])
      else
        let r := copyLoopF pread length offset fuel (total + br.toNat)
        (r.1, call :: r.2)
    else (.ok total, [])

/-- The copy-in loop as entered by the intercepted mmap: cumulative
count starts at 0. -/
def copy_file_contents (pread : Int → Nat → Int) (length : Nat) (offset : Int) :
    CopyResult × List ReadCall :=
  copyLoopF pread length offset (length + 1) 0

/-- Oracles for the effectful primitives used by one intercepted mmap
call: the fstat size query (none models fstat failure), the result of the
anonymous MAP_HUGETLB allocation and of the plain anonymous fallback
(none models MAP_FAILED), and the pread primitive. -/
structure Env where
  fstatSize : Int → Option Int
  allocHuge : Option Nat
  allocAnon : Option Nat
  pread : Int → Nat → Int

/-- Return value of the intercepted mmap: a substitute region address,
the MAP_FAILED sentinel, or the result of forwarding to the real mmap
with the recorded arguments. -/
inductive MmapRet where
  | addr (a : Nat)
  | mapFailed
  | forwarded (hint : Option Nat) (length : Nat) (prot flags : Nat) (fd : Int) (offset : Int)
  deriving DecidableEq, Repr

/-- Outcome of one intercepted mmap call: the returned value, the tracker
afterwards, and the (address, size) pairs the call passed to the real
munmap internally. -/
structure MmapOut where
  ret : MmapRet
  tracker : Tracker
  unmaps : List (Nat × Nat)
  deriving DecidableEq, Repr

/-- The loading phase of the intercepted mmap, entered once an anonymous
region mem has been obtained: run the copy-in loop; on success track the
region and return it, otherwise release it and return MAP_FAILED. -/
def loadPhase (env : Env) (tr : Tracker) (length : Nat) (offset : Int) (mem : Nat) : MmapOut :=
  match (copy_file_contents env.pread length offset).1 with
  | .ok _ => ⟨.addr mem, track_allocation mem length tr, []⟩
  | _ => ⟨.mapFailed, tr, [(mem, length)]⟩

/-- Embedding of the intercepted mmap from hugepage_wrapper.cpp.  The
mprotect tightening step after a successful copy is omitted: the source
ignores its result and it does not affect the returned value, the
tracker, or the release calls. -/
def mmap_intercept (env : Env) (tr : Tracker) (hint : Option Nat) (length : Nat)
    (prot flags : Nat) (fd : Int) (offset : Int) : MmapOut :=
  if 0 ≤ fd ∧ should_use_hugepages fd length = true then
    match env.fstatSize fd with
    | none => ⟨.forwarded hint length prot flags fd offset, tr, []⟩
    | some stSize =>
      if offset = 0 ∧ length = sizeTCast stSize then
        match env.allocHuge with
        | some mem => loadPhase env tr length offset mem
        | none =>
          match env.allocAnon with
          | some mem => loadPhase env tr length offset mem
          | none => ⟨.mapFailed, tr, []⟩
      else ⟨.forwarded hint length prot flags fd offset, tr, []⟩
  else ⟨.forwarded hint length prot flags fd offset, tr, []⟩

/-- Embedding of the intercepted munmap: the first component is the value
returned to the caller (the real munmap result on the arguments actually
used), the second the tracker afterwards, the third the (address, length)
pair passed to the real munmap. -/
def munmap_intercept (rmunmap : Nat → Nat → Int) (tr : Tracker)
    (addr : Nat) (length : Nat) : Int × Tracker × (Nat × Nat) :=
  let r := untrack_allocation addr tr
  if 0 < r.1 then (rmunmap addr r.1, r.2, (addr, r.1))
  else (rmunmap addr length, r.2, (addr, length))

/-- Inputs of the CPU capability gate (cpu_validator.cpp): whether the
build targets x86_64, and the CPUID leaf 0 and leaf 1 register sets
(eax, ebx, ecx, edx), none modelling a failed __get_cpuid query. -/
structure CpuEnv where
  isX86 : Bool
  cpuid0 : Option (Nat × Nat × Nat × Nat)
  cpuid1 : Option (Nat × Nat × Nat × Nat)

/-- Byte k (little endian) of a 32-bit register value. -/
def regByte (r k : Nat) : Nat := r / 256 ^ k % 256

/-- The 12 vendor bytes assembled from ebx, edx, ecx in that order, as
the source memcpy sequence does. -/
def vendorBytes (ebx edx ecx : Nat) : List Nat :=
  [regByte ebx 0, regByte ebx 1, regByte ebx 2, regByte ebx 3,
   regByte edx 0, regByte edx 1, regByte edx 2, regByte edx 3,
   regByte ecx 0, regByte ecx 1, regByte ecx 2, regByte ecx 3]

/-- ASCII bytes of the target vendor string AuthenticAMD. -/
def authenticAMD : List Nat :=
  [65, 117, 116, 104, 101, 110, 116, 105, 99, 65, 77, 68]

/-- Base family field of CPUID leaf 1 eax: bits 8..11. -/
def baseFamily (eax : Nat) : Nat := eax / 2 ^ 8 % 16

/-- Extended family field of CPUID leaf 1 eax: bits 20..27. -/
def extendedFamily (eax : Nat) : Nat := eax / 2 ^ 20 % 256

/-- Base model field of CPUID leaf 1 eax: bits 4..7. -/
def baseModel (eax : Nat) : Nat := eax / 2 ^ 4 % 16

/-- Extended model field of CPUID leaf 1 eax: bits 16..19. -/
def extendedModel (eax : Nat) : Nat := eax / 2 ^ 16 % 16

/-- Display family as computed by is_zen5_cpu: base family, plus the
extended family when the base family is 0xF. -/
def display_family (eax : Nat) : Nat :=
  if baseFamily eax = 0xF then baseFamily eax + extendedFamily eax
  else baseFamily eax

/-- Display model as computed by is_zen5_cpu: extended model prepended
when the base family is 0xF or 0x6 (computed by the source and unused by
the gate decision). -/
def display_model (eax : Nat) : Nat :=
  if baseFamily eax = 0xF ∨ baseFamily eax = 0x6 then
    extendedModel eax * 16 + baseModel eax
  else baseModel eax

/-- Embedding of is_zen5_cpu: on x86_64, leaf 0 must succeed, the vendor
must be AuthenticAMD, leaf 1 must succeed, and the display family must be
0x1A; on any other architecture the function is the constant false. -/
def is_zen5_cpu (e : CpuEnv) : Bool :=
  if e.isX86 then
    match e.cpuid0 with
    | none => false
    | some (_, ebx, ecx, edx) =>
      if vendorBytes ebx edx ecx = authenticAMD then
        match e.cpuid1 with
        | none => false
        | some (eax, _, _, _) => decide (display_family eax = 0x1A)
      else false
  else false

/-- Observable outcome of validate_zen5_or_exit: return without effect,
or terminate the process with the given status. -/
inductive GateResult where
  | ok
  | exited (code : Nat)
  deriving DecidableEq, Repr

/-- Embedding of validate_zen5_or_exit: calls exit(1) after its
diagnostics when is_zen5_cpu is false, else returns. -/
def validate_zen5_or_exit (e : CpuEnv) : GateResult :=
  if is_zen5_cpu e then .ok else .exited 1

/-! Helper lemmas about the tracker operations. -/

theorem should_use_hugepages_true_iff (fd : Int) (length : Nat) :
    should_use_hugepages fd length = true ↔ MIN_SIZE_FOR_HUGEPAGES ≤ length := by
  simp [should_use_hugepages, ENABLE_HUGEPAGES]

theorem untrack_not_mem (addr : Nat) (tr : Tracker)
    (h : addr ∉ tr.map Prod.fst) : untrack_allocation addr tr = (0, tr) := by
  induction tr with
  | nil => rfl
  | cons p rest ih =>
    obtain ⟨a, s⟩ := p
    simp only [List.map_cons, List.mem_cons, not_or] at h
    have hne : a ≠ addr := fun hh => h.1 hh.symm
    simp [untrack_allocation, hne, ih h.2]

theorem untrack_first (addr s : Nat) (l1 l2 : Tracker)
    (h : addr ∉ l1.map Prod.fst) :
    untrack_allocation addr (l1 ++ (addr, s) :: l2) = (s, l1 ++ l2) := by
  induction l1 with
  | nil => simp [untrack_allocation]
  | cons p rest ih =>
    obtain ⟨a, t⟩ := p
    simp only [List.map_cons, List.mem_cons, not_or] at h
    have hne : a ≠ addr := fun hh => h.1 hh.symm
    simp [untrack_allocation, hne, ih h.2]

theorem untrack_sublist (addr : Nat) (tr : Tracker) :
    (untrack_allocation addr tr).2.Sublist tr := by
  induction tr with
  | nil => simp [untrack_allocation]
  | cons p rest ih =>
    obtain ⟨a, s⟩ := p
    by_cases hae : a = addr
    · simp [untrack_allocation, hae]
    · simpa [untrack_allocation, hae] using ih.cons₂ (a, s)

/-! Helper lemmas about the copy-in loop. -/

theorem copyLoopF_ok_total (pread : Int → Nat → Int) (length : Nat) (offset : Int)
    (hp : ∀ p c, pread p c ≤ (c : Int)) :
    ∀ fuel total t, total ≤ length →
      (copyLoopF pread length offset fuel total).1 = .ok t → t = length := by
  intro fuel
  induction fuel with
  | zero =>
    intro total t hle hok
    by_cases hlt : total < length
    · simp [copyLoopF, hlt] at hok
    · simp [copyLoopF, hlt] at hok
      omega
  | succ fuel ih =>
    intro total t hle hok
    by_cases hlt : total < length
    · simp only [copyLoopF, if_pos hlt] at hok
      set toRead := if length - total < chunk_size then length - total else chunk_size with htr
      have htoRead : toRead ≤ length - total := by
        by_cases hc : length - total < chunk_size <;> simp [htr, hc] <;> omega
      set br := pread (offset + (total : Int)) toRead with hbr
      by_cases hneg : br < 0
      · simp [hneg] at hok
      · by_cases hz : br = 0
        · simp [hneg, hz] at hok
        · simp only [if_neg hneg, if_neg hz] at hok
          have hbrle : br.toNat ≤ toRead := Int.toNat_le.mpr (hp _ _)
          exact ih (total + br.toNat) t (by omega) hok
    · simp [copyLoopF, hlt] at hok
      omega

theorem copy_file_contents_ok_total (pread : Int → Nat → Int) (length : Nat) (offset : Int)
    (hp : ∀ p c, pread p c ≤ (c : Int)) (t : Nat)
    (hok : (copy_file_contents pread length offset).1 = .ok t) : t = length :=
  copyLoopF_ok_total pread length offset hp (length + 1) 0 t (Nat.zero_le _) hok

theorem copyLoopF_trace_shape (pread : Int → Nat → Int) (length : Nat) (offset : Int) :
    ∀ fuel total, ∀ call ∈ (copyLoopF pread length offset fuel total).2,
      call.src = offset + (call.dst : Int) ∧
      call.cnt = (if length - call.dst < chunk_size then length - call.dst else chunk_size) := by
  intro fuel
  induction fuel with
  | zero =>
    intro total call hcall
    by_cases hlt : total < length <;> simp [copyLoopF, hlt] at hcall
  | succ fuel ih =>
    intro total call hcall
    by_cases hlt : total < length
    · simp only [copyLoopF, if_pos hlt] at hcall
      set br := pread (offset + (total : Int))
        (if length - total < chunk_size then length - total else chunk_size) with hbr
      by_cases hneg : br < 0
      · simp [hneg] at hcall
        subst hcall
        exact ⟨rfl, rfl⟩
      · by_cases hz : br = 0
        · simp [hneg, hz] at hcall
          subst hcall
          exact ⟨rfl, rfl⟩
        · simp only [if_neg hneg, if_neg hz, List.mem_cons] at hcall
          rcases hcall with hcall | hcall
          · subst hcall
            exact ⟨rfl, rfl⟩
          · exact ih (total + br.toNat) call hcall
    · simp [copyLoopF, hlt] at hcall

theorem copyLoopF_trace_head (pread : Int → Nat → Int) (length : Nat) (offset : Int)
    (fuel total : Nat) (call : ReadCall) (rest : List ReadCall)
    (h : (copyLoopF pread length offset fuel total).2 = call :: rest) : call.dst = total := by
  cases fuel with
  | zero =>
    by_cases hlt : total < length <;> simp [copyLoopF, hlt] at h
  | succ fuel =>
    by_cases hlt : total < length
    · simp only [copyLoopF, if_pos hlt] at h
      set br := pread (offset + (total : Int))
        (if length - total < chunk_size then length - total else chunk_size) with hbr
      by_cases hneg : br < 0
      · simp [hneg] at h
        rw [← h.1]
      · by_cases hz : br = 0
        · simp [hneg, hz] at h
          rw [← h.1]
        · simp only [if_neg hneg, if_neg hz, List.cons.injEq] at h
          rw [← h.1]
    · simp [copyLoopF, hlt] at h

/-- Successive reads advance together: each next read starts where the
previous one left off, shifted by the byte count the pread oracle
actually returned for it. -/
def chainedReads (pread : Int → Nat → Int) : List ReadCall → Prop
  | c1 :: c2 :: rest =>
    c2.dst = c1.dst + (pread c1.src c1.cnt).toNat ∧ chainedReads pread (c2 :: rest)
  | _ => True

theorem copyLoopF_chained (pread : Int → Nat → Int) (length : Nat) (offset : Int) :
    ∀ fuel total, chainedReads pread (copyLoopF pread length offset fuel total).2 := by
  intro fuel
  induction fuel with
  | zero =>
    intro total
    by_cases hlt : total < length
    · simp only [copyLoopF, if_pos hlt]
      trivial
    · simp only [copyLoopF, if_neg hlt]
      trivial
  | succ fuel ih =>
    intro total
    by_cases hlt : total < length
    · simp only [copyLoopF, if_pos hlt]
      set toRead := if length - total < chunk_size then length - total else chunk_size with htr
      set br := pread (offset + (total : Int)) toRead with hbr
      by_cases hneg : br < 0
      · simp only [if_pos hneg]
        trivial
      · by_cases hz : br = 0
        · simp only [if_neg hneg, if_pos hz]
          trivial
        · simp only [if_neg hneg, if_neg hz]
          rcases hrest : (copyLoopF pread length offset fuel (total + br.toNat)).2 with _ | ⟨c2, rest⟩
          · trivial
          · have hc2 : c2.dst = total + br.toNat :=
              copyLoopF_trace_head pread length offset fuel (total + br.toNat) c2 rest hrest
            have hch := ih (total + br.toNat)
            rw [hrest] at hch
            refine ⟨?_, hch⟩
            simpa using hc2
    · simp only [copyLoopF, if_neg hlt]
      trivial

/-! Case-analysis lemmas for the intercepted mmap. -/

theorem mmap_not_candidate (env : Env) (tr : Tracker) (hint : Option Nat) (length : Nat)
    (prot flags : Nat) (fd : Int) (offset : Int)
    (h : ¬(0 ≤ fd ∧ should_use_hugepages fd length = true)) :
    mmap_intercept env tr hint length prot flags fd offset =
      ⟨.forwarded hint length prot flags fd offset, tr, []⟩ := by
  simp [mmap_intercept, h]

theorem mmap_fstat_fail (env : Env) (tr : Tracker) (hint : Option Nat) (length : Nat)
    (prot flags : Nat) (fd : Int) (offset : Int)
    (hc : 0 ≤ fd ∧ should_use_hugepages fd length = true)
    (hst : env.fstatSize fd = none) :
    mmap_intercept env tr hint length prot flags fd offset =
      ⟨.forwarded hint length prot flags fd offset, tr, []⟩ := by
  simp [mmap_intercept, hc, hst]

theorem mmap_not_whole_file (env : Env) (tr : Tracker) (hint : Option Nat) (length : Nat)
    (prot flags : Nat) (fd : Int) (offset : Int) (stSize : Int)
    (hc : 0 ≤ fd ∧ should_use_hugepages fd length = true)
    (hst : env.fstatSize fd = some stSize)
    (hw : ¬(offset = 0 ∧ length = sizeTCast stSize)) :
    mmap_intercept env tr hint length prot flags fd offset =
      ⟨.forwarded hint length prot flags fd offset, tr, []⟩ := by
  simp [mmap_intercept, hc, hst, hw]

theorem mmap_promote_huge (env : Env) (tr : Tracker) (hint : Option Nat) (length : Nat)
    (prot flags : Nat) (fd : Int) (offset : Int) (stSize : Int) (mem : Nat)
    (hc : 0 ≤ fd ∧ should_use_hugepages fd length = true)
    (hst : env.fstatSize fd = some stSize)
    (hw : offset = 0 ∧ length = sizeTCast stSize)
    (hH : env.allocHuge = some mem) :
    mmap_intercept env tr hint length prot flags fd offset =
      loadPhase env tr length offset mem := by
  obtain ⟨hw0, hwlen⟩ := hw
  subst hw0
  subst hwlen
  simp [mmap_intercept, hc, hst, hH]

theorem mmap_promote_anon (env : Env) (tr : Tracker) (hint : Option Nat) (length : Nat)
    (prot flags : Nat) (fd : Int) (offset : Int) (stSize : Int) (mem : Nat)
    (hc : 0 ≤ fd ∧ should_use_hugepages fd length = true)
    (hst : env.fstatSize fd = some stSize)
    (hw : offset = 0 ∧ length = sizeTCast stSize)
    (hH : env.allocHuge = none) (hA : env.allocAnon = some mem) :
    mmap_intercept env tr hint length prot flags fd offset =
      loadPhase env tr length offset mem := by
  obtain ⟨hw0, hwlen⟩ := hw
  subst hw0
  subst hwlen
  simp [mmap_intercept, hc, hst, hH, hA]

theorem mmap_alloc_both_fail (env : Env) (tr : Tracker) (hint : Option Nat) (length : Nat)
    (prot flags : Nat) (fd : Int) (offset : Int) (stSize : Int)
    (hc : 0 ≤ fd ∧ should_use_hugepages fd length = true)
    (hst : env.fstatSize fd = some stSize)
    (hw : offset = 0 ∧ length = sizeTCast stSize)
    (hH : env.allocHuge = none) (hA : env.allocAnon = none) :
    mmap_intercept env tr hint length prot flags fd offset = ⟨.mapFailed, tr, []⟩ := by
  obtain ⟨hw0, hwlen⟩ := hw
  subst hw0
  subst hwlen
  simp [mmap_intercept, hc, hst, hH, hA]

theorem loadPhase_ok (env : Env) (tr : Tracker) (length : Nat) (offset : Int) (mem t : Nat)
    (hok : (copy_file_contents env.pread length offset).1 = .ok t) :
    loadPhase env tr length offset mem = ⟨.addr mem, (mem, length) :: tr, []⟩ := by
  simp [loadPhase, hok, track_allocation]

theorem loadPhase_fail (env : Env) (tr : Tracker) (length : Nat) (offset : Int) (mem : Nat)
    (hfail : ∀ t, (copy_file_contents env.pread length offset).1 ≠ .ok t) :
    loadPhase env tr length offset mem = ⟨.mapFailed, tr, [(mem, length)]⟩ := by
  unfold loadPhase
  rcases hc : (copy_file_contents env.pread length offset).1 with t | t | t | _
  · exact absurd hc (hfail t)
  · rfl
  · rfl
  · rfl

theorem loadPhase_ret_addr (env : Env) (tr : Tracker) (length : Nat) (offset : Int)
    (mem a : Nat) (h : (loadPhase env tr length offset mem).ret = .addr a) :
    a = mem ∧ ∃ t, (copy_file_contents env.pread length offset).1 = .ok t := by
  unfold loadPhase at h
  rcases hc : (copy_file_contents env.pread length offset).1 with t | t | t | _ <;>
    rw [hc] at h <;> simp at h
  exact ⟨h.symm, t, rfl⟩

/-- Decomposition of the tracker after an intercepted mmap: either it is
unchanged, or one entry pairing a freshly allocated region with the
requested length was pushed on top. -/
theorem mmap_tracker_cases (env : Env) (tr : Tracker) (hint : Option Nat) (length : Nat)
    (prot flags : Nat) (fd : Int) (offset : Int) :
    (mmap_intercept env tr hint length prot flags fd offset).tracker = tr ∨
    ∃ mem, (env.allocHuge = some mem ∨ env.allocAnon = some mem) ∧
      (mmap_intercept env tr hint length prot flags fd offset).tracker = (mem, length) :: tr := by
  by_cases hc : 0 ≤ fd ∧ should_use_hugepages fd length = true
  · rcases hst : env.fstatSize fd with _ | stSize
    · rw [mmap_fstat_fail env tr hint length prot flags fd offset hc hst]
      left
      rfl
    · by_cases hw : offset = 0 ∧ length = sizeTCast stSize
      · have hload : ∀ mem, (loadPhase env tr length offset mem).tracker = tr ∨
            (loadPhase env tr length offset mem).tracker = (mem, length) :: tr := by
          intro mem
          unfold loadPhase
          rcases (copy_file_contents env.pread length offset).1 with t | t | t | _
          · right
            rfl
          · left
            rfl
          · left
            rfl
          · left
            rfl
        rcases hH : env.allocHuge with _ | mem
        · rcases hA : env.allocAnon with _ | mem
          · rw [mmap_alloc_both_fail env tr hint length prot flags fd offset stSize hc hst hw hH hA]
            left
            rfl
          · rw [mmap_promote_anon env tr hint length prot flags fd offset stSize mem hc hst hw hH hA]
            rcases hload mem with h | h
            · left
              exact h
            · right
              exact ⟨mem, Or.inr rfl, h⟩
        · rw [mmap_promote_huge env tr hint length prot flags fd offset stSize mem hc hst hw hH]
          rcases hload mem with h | h
          · left
            exact h
          · right
            exact ⟨mem, Or.inl rfl, h⟩
      · rw [mmap_not_whole_file env tr hint length prot flags fd offset stSize hc hst hw]
        left
        rfl
  · rw [mmap_not_candidate env tr hint length prot flags fd offset hc]
    left
    rfl

theorem cleanup_hugepage_allocations_eq (tr : Tracker) :
    cleanup_hugepage_allocations tr = ([], []) := by
  induction tr with
  | nil => rfl
  | cons p rest ih => simpa [cleanup_hugepage_allocations] using ih

/-! Claim theorems. -/

/-- C10: on a tracker containing no entry with address a and for a
positive size s, track_allocation followed by untrack_allocation at a
returns s and restores the prior tracker, and untrack_allocation on an
absent address returns 0 and leaves the tracker unchanged. -/
theorem claim_C10 (tr : Tracker) (a s : Nat)
    (h : a ∉ tr.map Prod.fst) (hs : 0 < s) :
    untrack_allocation a (track_allocation a s tr) = (s, tr) ∧
    untrack_allocation a tr = (0, tr) := by
  refine ⟨?_, untrack_not_mem a tr h⟩
  simp [track_allocation, untrack_allocation]

theorem claim_C10_inst :
    untrack_allocation 2 (track_allocation 2 3 [(1, 5)]) = (3, [(1, 5)]) ∧
    untrack_allocation 2 [(1, 5)] = (0, [(1, 5)]) :=
  claim_C10 [(1, 5)] 2 3 (by decide) (by decide)

/-- C9: provided the allocator oracles never return the base address of a
live tracked entry, the intercepted mmap preserves distinctness of the
tracked base addresses, and so do removal by untrack_allocation and the
teardown iteration of the destructor. -/
theorem claim_C9 (env : Env) (tr : Tracker) (hint : Option Nat) (length : Nat)
    (prot flags : Nat) (fd : Int) (offset : Int) (a : Nat) :
    ((tr.map Prod.fst).Nodup →
      (∀ m, env.allocHuge = some m → m ∉ tr.map Prod.fst) →
      (∀ m, env.allocAnon = some m → m ∉ tr.map Prod.fst) →
      (((mmap_intercept env tr hint length prot flags fd offset).tracker.map Prod.fst)).Nodup) ∧
    ((tr.map Prod.fst).Nodup →
      (((untrack_allocation a tr).2.map Prod.fst)).Nodup) ∧
    (((zen5_optimizer_fini tr).1.map Prod.fst)).Nodup := by
  refine ⟨?_, ?_, ?_⟩
  · intro hnd hH hA
    rcases mmap_tracker_cases env tr hint length prot flags fd offset with h | ⟨mem, hsrc, h⟩
    · rw [h]
      exact hnd
    · rw [h]
      have hfresh : mem ∉ tr.map Prod.fst := by
        rcases hsrc with hs | hs
        · exact hH mem hs
        · exact hA mem hs
      rw [List.map_cons]
      exact List.nodup_cons.mpr ⟨hfresh, hnd⟩
  · intro hnd
    exact List.Nodup.sublist (List.Sublist.map Prod.fst (untrack_sublist a tr)) hnd
  · rw [zen5_optimizer_fini, cleanup_hugepage_allocations_eq]
    simp

theorem claim_C9_inst :
    (((mmap_intercept ⟨fun _ => none, none, none, fun _ _ => 0⟩ [(1, 5)] none 0 0 0 0 0).tracker.map
        Prod.fst)).Nodup ∧
    (((untrack_allocation 1 [(1, 5)]).2.map Prod.fst)).Nodup ∧
    (((zen5_optimizer_fini [(1, 5)]).1.map Prod.fst)).Nodup := by
  have h := claim_C9 ⟨fun _ => none, none, none, fun _ _ => 0⟩ [(1, 5)] none 0 0 0 0 0 1
  exact ⟨h.1 (by decide) (fun m hm => Option.noConfusion hm) (fun m hm => Option.noConfusion hm),
         h.2.1 (by decide), h.2.2⟩

/-- C2: the intercepted munmap on a tracked address removes that entry
and calls the real munmap with the tracked size, ignoring the supplied
length, while on an untracked address it forwards the supplied address
and length unchanged; both paths return the real primitive result on the
arguments used. -/
theorem claim_C2 (rmunmap : Nat → Nat → Int) (tr : Tracker) (addr s length : Nat)
    (l1 l2 : Tracker) :
    ((tr = l1 ++ (addr, s) :: l2 ∧ addr ∉ l1.map Prod.fst ∧ 0 < s) →
      munmap_intercept rmunmap tr addr length = (rmunmap addr s, l1 ++ l2, (addr, s))) ∧
    (addr ∉ tr.map Prod.fst →
      munmap_intercept rmunmap tr addr length = (rmunmap addr length, tr, (addr, length))) := by
  constructor
  · rintro ⟨rfl, hnm, hs⟩
    have hu := untrack_first addr s l1 l2 hnm
    simp [munmap_intercept, hu, hs]
  · intro h
    have hu := untrack_not_mem addr tr h
    simp [munmap_intercept, hu]

theorem claim_C2_inst :
    munmap_intercept (fun a l => (a : Int) + (l : Int)) [(5, 2), (9, 4)] 9 1 =
      ((9 : Int) + (4 : Int), [(5, 2)], (9, 4)) ∧
    munmap_intercept (fun a l => (a : Int) + (l : Int)) [(5, 2), (9, 4)] 7 1 =
      ((7 : Int) + (1 : Int), [(5, 2), (9, 4)], (7, 1)) :=
  ⟨(claim_C2 (fun a l => (a : Int) + (l : Int)) [(5, 2), (9, 4)] 9 4 1 [(5, 2)] []).1
      ⟨rfl, by decide, by decide⟩,
   (claim_C2 (fun a l => (a : Int) + (l : Int)) [(5, 2), (9, 4)] 7 0 1 [] []).2 (by decide)⟩

/-- C4: evaluation of the destructor at a tracker holding one live entry:
the tracker is emptied, but the list of regions passed to the real munmap
is empty, so the tracked region is never released, contradicting the
claim that each remaining region is unmapped exactly once. -/
theorem claim_C4 :
    zen5_optimizer_fini [(4096, 1073741824)] = ([], []) ∧
    (zen5_optimizer_fini [(4096, 1073741824)]).2.count (4096, 1073741824) = 0 := by
  constructor
  · rfl
  · rfl

/-- C8: when the descriptor is non-negative, the length meets the
threshold and the fstat query fails, the intercepted mmap forwards the
call unmodified with all caller-supplied arguments and does not return
the failure sentinel. -/
theorem claim_C8 (env : Env) (tr : Tracker) (hint : Option Nat) (length : Nat)
    (prot flags : Nat) (fd : Int) (offset : Int)
    (hfd : 0 ≤ fd) (hlen : MIN_SIZE_FOR_HUGEPAGES ≤ length)
    (hst : env.fstatSize fd = none) :
    mmap_intercept env tr hint length prot flags fd offset =
      ⟨.forwarded hint length prot flags fd offset, tr, []⟩ ∧
    (mmap_intercept env tr hint length prot flags fd offset).ret ≠ .mapFailed := by
  have hc : 0 ≤ fd ∧ should_use_hugepages fd length = true :=
    ⟨hfd, (should_use_hugepages_true_iff fd length).mpr hlen⟩
  have h := mmap_fstat_fail env tr hint length prot flags fd offset hc hst
  rw [h]
  exact ⟨rfl, by simp⟩

theorem claim_C8_inst :
    mmap_intercept ⟨fun _ => none, none, none, fun _ _ => 0⟩ [] none 1073741824 1 2 3 0 =
      ⟨.forwarded none 1073741824 1 2 3 0, [], []⟩ ∧
    (mmap_intercept ⟨fun _ => none, none, none, fun _ _ => 0⟩ [] none 1073741824 1 2 3 0).ret ≠
      .mapFailed :=
  claim_C8 ⟨fun _ => none, none, none, fun _ _ => 0⟩ [] none 1073741824 1 2 3 0
    (by decide) (by decide) rfl

/-- C5: for an eligible request whose large-page anonymous allocation
fails, the interposer falls back to a plain anonymous allocation; if that
succeeds and copy-in completes, the caller gets the fallback region, and
if it also fails, the call returns the failure sentinel directly without
forwarding to the original primitive. -/
theorem claim_C5 (env : Env) (tr : Tracker) (hint : Option Nat) (length : Nat)
    (prot flags : Nat) (fd : Int) (offset : Int) (stSize : Int)
    (hfd : 0 ≤ fd) (hlen : MIN_SIZE_FOR_HUGEPAGES ≤ length)
    (hst : env.fstatSize fd = some stSize)
    (hoff : offset = 0) (hsz : length = sizeTCast stSize)
    (hH : env.allocHuge = none) :
    (env.allocAnon = none →
      mmap_intercept env tr hint length prot flags fd offset = ⟨.mapFailed, tr, []⟩) ∧
    (∀ mem, env.allocAnon = some mem →
      mmap_intercept env tr hint length prot flags fd offset =
        loadPhase env tr length offset mem) ∧
    (∀ mem t, env.allocAnon = some mem →
      (copy_file_contents env.pread length offset).1 = .ok t →
      (mmap_intercept env tr hint length prot flags fd offset).ret = .addr mem) := by
  have hc : 0 ≤ fd ∧ should_use_hugepages fd length = true :=
    ⟨hfd, (should_use_hugepages_true_iff fd length).mpr hlen⟩
  have hw : offset = 0 ∧ length = sizeTCast stSize := ⟨hoff, hsz⟩
  refine ⟨?_, ?_, ?_⟩
  · intro hA
    exact mmap_alloc_both_fail env tr hint length prot flags fd offset stSize hc hst hw hH hA
  · intro mem hA
    exact mmap_promote_anon env tr hint length prot flags fd offset stSize mem hc hst hw hH hA
  · intro mem t hA hok
    rw [mmap_promote_anon env tr hint length prot flags fd offset stSize mem hc hst hw hH hA,
      loadPhase_ok env tr length offset mem t hok]

theorem claim_C5_inst :
    mmap_intercept ⟨fun _ => some 1073741824, none, none, fun _ c => (c : Int)⟩
      [] none 1073741824 0 0 3 0 = ⟨.mapFailed, [], []⟩ ∧
    (mmap_intercept ⟨fun _ => some 1073741824, none, some 4096, fun _ c => (c : Int)⟩
      [] none 1073741824 0 0 3 0).ret = .addr 4096 :=
  ⟨(claim_C5 ⟨fun _ => some 1073741824, none, none, fun _ c => (c : Int)⟩
      [] none 1073741824 0 0 3 0 1073741824
      (by decide) (by decide) rfl rfl (by decide) rfl).1 rfl,
   (claim_C5 ⟨fun _ => some 1073741824, none, some 4096, fun _ c => (c : Int)⟩
      [] none 1073741824 0 0 3 0 1073741824
      (by decide) (by decide) rfl rfl (by decide) rfl).2.2 4096 1073741824 rfl (by decide)⟩

/-- C1: the intercepted mmap returns a substitute region only when the
descriptor is non-negative, the offset is zero, the length equals the
fstat-reported file size and the length is at least the 1 GiB threshold;
a request failing any of these conditions is forwarded unmodified, and
the threshold itself is eligible while one byte below it is not. -/
theorem claim_C1 (env : Env) (tr : Tracker) (hint : Option Nat) (length : Nat)
    (prot flags : Nat) (fd : Int) (offset : Int) :
    (∀ a, (mmap_intercept env tr hint length prot flags fd offset).ret = .addr a →
      0 ≤ fd ∧ offset = 0 ∧
      (∃ stSize, env.fstatSize fd = some stSize ∧ length = sizeTCast stSize) ∧
      MIN_SIZE_FOR_HUGEPAGES ≤ length) ∧
    (¬(0 ≤ fd ∧ offset = 0 ∧
        (∃ stSize, env.fstatSize fd = some stSize ∧ length = sizeTCast stSize) ∧
        MIN_SIZE_FOR_HUGEPAGES ≤ length) →
      mmap_intercept env tr hint length prot flags fd offset =
        ⟨.forwarded hint length prot flags fd offset, tr, []⟩) ∧
    should_use_hugepages fd MIN_SIZE_FOR_HUGEPAGES = true ∧
    should_use_hugepages fd (MIN_SIZE_FOR_HUGEPAGES - 1) = false := by
  refine ⟨?_, ?_, ?_, ?_⟩
  · intro a ha
    by_cases hc : 0 ≤ fd ∧ should_use_hugepages fd length = true
    · rcases hst : env.fstatSize fd with _ | stSize
      · rw [mmap_fstat_fail env tr hint length prot flags fd offset hc hst] at ha
        exact absurd ha (by simp)
      · by_cases hw : offset = 0 ∧ length = sizeTCast stSize
        · exact ⟨hc.1, hw.1, ⟨stSize, rfl, hw.2⟩,
            (should_use_hugepages_true_iff fd length).mp hc.2⟩
        · rw [mmap_not_whole_file env tr hint length prot flags fd offset stSize hc hst hw] at ha
          exact absurd ha (by simp)
    · rw [mmap_not_candidate env tr hint length prot flags fd offset hc] at ha
      exact absurd ha (by simp)
  · intro hn
    by_cases hc : 0 ≤ fd ∧ should_use_hugepages fd length = true
    · rcases hst : env.fstatSize fd with _ | stSize
      · exact mmap_fstat_fail env tr hint length prot flags fd offset hc hst
      · by_cases hw : offset = 0 ∧ length = sizeTCast stSize
        · exact absurd ⟨hc.1, hw.1, ⟨stSize, hst, hw.2⟩,
            (should_use_hugepages_true_iff fd length).mp hc.2⟩ hn
        · exact mmap_not_whole_file env tr hint length prot flags fd offset stSize hc hst hw
    · exact mmap_not_candidate env tr hint length prot flags fd offset hc
  · simp [should_use_hugepages, ENABLE_HUGEPAGES]
  · simp [should_use_hugepages, ENABLE_HUGEPAGES, MIN_SIZE_FOR_HUGEPAGES]

theorem claim_C1_inst :
    (0 ≤ (3 : Int) ∧ (0 : Int) = 0 ∧
      (∃ stSize, (⟨fun _ => some 1073741824, some 4096, none, fun _ c => (c : Int)⟩ :
          Env).fstatSize 3 = some stSize ∧ 1073741824 = sizeTCast stSize) ∧
      MIN_SIZE_FOR_HUGEPAGES ≤ 1073741824) ∧
    mmap_intercept ⟨fun _ => none, none, none, fun _ _ => 0⟩ [] none 5 0 0 (-1) 9 =
      ⟨.forwarded none 5 0 0 (-1) 9, [], []⟩ ∧
    should_use_hugepages 3 MIN_SIZE_FOR_HUGEPAGES = true ∧
    should_use_hugepages 3 (MIN_SIZE_FOR_HUGEPAGES - 1) = false :=
  ⟨(claim_C1 ⟨fun _ => some 1073741824, some 4096, none, fun _ c => (c : Int)⟩
      [] none 1073741824 0 0 3 0).1 4096 (by decide),
   (claim_C1 ⟨fun _ => none, none, none, fun _ _ => 0⟩ [] none 5 0 0 (-1) 9).2.1
      (fun h => absurd h.1 (by decide)),
   (claim_C1 ⟨fun _ => none, none, none, fun _ _ => 0⟩ [] none 5 0 0 3 9).2.2.1,
   (claim_C1 ⟨fun _ => none, none, none, fun _ _ => 0⟩ [] none 5 0 0 3 9).2.2.2⟩

/-- C3: under the positioned-read contract that a read never returns more
bytes than requested, the copy-in terminates successfully only with
cumulative bytes equal to the requested length; the substitute region is
returned only after such a complete copy, and a read error or premature
end-of-file makes the loader release the partially filled region, leave
the tracker unchanged and return the failure sentinel. -/
theorem claim_C3 (env : Env) (tr : Tracker) (hint : Option Nat) (length : Nat)
    (prot flags : Nat) (fd : Int) (offset : Int) (mem : Nat)
    (hp : ∀ p c, env.pread p c ≤ (c : Int)) :
    (∀ t, (copy_file_contents env.pread length offset).1 = .ok t → t = length) ∧
    (∀ a, (loadPhase env tr length offset mem).ret = .addr a →
      a = mem ∧ (copy_file_contents env.pread length offset).1 = .ok length) ∧
    (∀ t, ((copy_file_contents env.pread length offset).1 = .readError t ∨
           (copy_file_contents env.pread length offset).1 = .eofError t) →
      loadPhase env tr length offset mem = ⟨.mapFailed, tr, [(mem, length)]⟩) ∧
    (∀ a, (mmap_intercept env tr hint length prot flags fd offset).ret = .addr a →
      offset = 0 ∧ (copy_file_contents env.pread length 0).1 = .ok length) := by
  have hok_total : ∀ t, (copy_file_contents env.pread length offset).1 = .ok t → t = length :=
    fun t ht => copy_file_contents_ok_total env.pread length offset hp t ht
  refine ⟨hok_total, ?_, ?_, ?_⟩
  · intro a ha
    obtain ⟨hamem, t, hok⟩ := loadPhase_ret_addr env tr length offset mem a ha
    have ht := hok_total t hok
    rw [ht] at hok
    exact ⟨hamem, hok⟩
  · intro t h
    apply loadPhase_fail
    intro t' hok
    rcases h with h | h <;> rw [h] at hok <;> exact CopyResult.noConfusion hok
  · intro a ha
    by_cases hc : 0 ≤ fd ∧ should_use_hugepages fd length = true
    · rcases hst : env.fstatSize fd with _ | stSize
      · rw [mmap_fstat_fail env tr hint length prot flags fd offset hc hst] at ha
        exact absurd ha (by simp)
      · by_cases hw : offset = 0 ∧ length = sizeTCast stSize
        · have hload : ∀ m, (loadPhase env tr length offset m).ret = .addr a →
              offset = 0 ∧ (copy_file_contents env.pread length 0).1 = .ok length := by
            intro m hm
            obtain ⟨_, t, hok⟩ := loadPhase_ret_addr env tr length offset m a hm
            have ht := copy_file_contents_ok_total env.pread length offset hp t hok
            rw [ht] at hok
            rw [hw.1] at hok
            exact ⟨hw.1, hok⟩
          rcases hH : env.allocHuge with _ | m
          · rcases hA : env.allocAnon with _ | m
            · rw [mmap_alloc_both_fail env tr hint length prot flags fd offset stSize
                hc hst hw hH hA] at ha
              exact absurd ha (by simp)
            · rw [mmap_promote_anon env tr hint length prot flags fd offset stSize m
                hc hst hw hH hA] at ha
              exact hload m ha
          · rw [mmap_promote_huge env tr hint length prot flags fd offset stSize m
              hc hst hw hH] at ha
            exact hload m ha
        · rw [mmap_not_whole_file env tr hint length prot flags fd offset stSize hc hst hw] at ha
          exact absurd ha (by simp)
    · rw [mmap_not_candidate env tr hint length prot flags fd offset hc] at ha
      exact absurd ha (by simp)

theorem claim_C3_inst :
    (0 : Int) = 0 ∧
    (copy_file_contents (fun _ c => (c : Int)) 1073741824 0).1 = .ok 1073741824 :=
  (claim_C3 ⟨fun _ => some 1073741824, some 4096, none, fun _ c => (c : Int)⟩
      [] none 1073741824 0 0 3 0 4096 (fun _ c => le_refl ((c : Nat) : Int))).2.2.2
    4096 (by decide)

/-- C6: the capability gate returns without effect exactly when the
CPUID queries succeed with vendor string AuthenticAMD and a display
family, decoded with the extended-family carry for base family 0xF,
equal to 0x1A; in every other case, including a non-x86 build, it
terminates the process with the non-zero status 1. -/
theorem claim_C6 (e : CpuEnv) :
    (validate_zen5_or_exit e = .ok ↔
      (e.isX86 = true ∧
        ∃ r0, e.cpuid0 = some r0 ∧ vendorBytes r0.2.1 r0.2.2.2 r0.2.2.1 = authenticAMD ∧
          ∃ r1, e.cpuid1 = some r1 ∧ display_family r1.1 = 0x1A)) ∧
    (e.isX86 = false → validate_zen5_or_exit e = .exited 1) ∧
    (validate_zen5_or_exit e ≠ .ok → validate_zen5_or_exit e = .exited 1) := by
  have hmain : is_zen5_cpu e = true ↔
      (e.isX86 = true ∧
        ∃ r0, e.cpuid0 = some r0 ∧ vendorBytes r0.2.1 r0.2.2.2 r0.2.2.1 = authenticAMD ∧
          ∃ r1, e.cpuid1 = some r1 ∧ display_family r1.1 = 0x1A) := by
    rcases e with ⟨x86, q0, q1⟩
    cases x86
    · simp [is_zen5_cpu]
    · cases q0 with
      | none => simp [is_zen5_cpu]
      | some r0 =>
        obtain ⟨a0, b0, c0, d0⟩ := r0
        by_cases hv : vendorBytes b0 d0 c0 = authenticAMD
        · cases q1 with
          | none => simp [is_zen5_cpu, hv]
          | some r1 =>
            obtain ⟨a1, b1, c1, d1⟩ := r1
            by_cases hfam : display_family a1 = 0x1A
            · simp [is_zen5_cpu, hv, hfam]
            · simp [is_zen5_cpu, hv, hfam]
        · simp [is_zen5_cpu, hv]
  refine ⟨?_, ?_, ?_⟩
  · by_cases hz : is_zen5_cpu e = true
    · rw [validate_zen5_or_exit, if_pos hz]
      exact iff_of_true rfl (hmain.mp hz)
    · rw [validate_zen5_or_exit, if_neg hz]
      exact iff_of_false (fun h => GateResult.noConfusion h) (fun hr => hz (hmain.mpr hr))
  · intro hx86
    have hz : is_zen5_cpu e = false := by simp [is_zen5_cpu, hx86]
    simp [validate_zen5_or_exit, hz]
  · intro hne
    by_cases hz : is_zen5_cpu e = true
    · exact absurd (by rw [validate_zen5_or_exit, if_pos hz]) hne
    · rw [validate_zen5_or_exit, if_neg hz]

theorem claim_C6_inst :
    validate_zen5_or_exit
        ⟨true, some (12, 1752462657, 1145913699, 1769238117), some (0xB00F00, 0, 0, 0)⟩ = .ok ∧
    validate_zen5_or_exit ⟨false, none, none⟩ = .exited 1 :=
  ⟨(claim_C6 ⟨true, some (12, 1752462657, 1145913699, 1769238117),
        some (0xB00F00, 0, 0, 0)⟩).1.mpr
      ⟨rfl, ⟨(12, 1752462657, 1145913699, 1769238117), rfl, by decide,
        ⟨(0xB00F00, 0, 0, 0), rfl, by decide⟩⟩⟩,
   (claim_C6 ⟨false, none, none⟩).2.1 rfl⟩

/-- C7 (amended): the chunk constant of the copy-in loop is 256 MiB, not
226 MiB; every positioned read requests the smaller of the chunk size and
the remaining byte count, the file position of each read is the requested
offset plus the destination cursor, and successive reads advance by the
byte count actually returned. -/
theorem claim_C7 (pread : Int → Nat → Int) (length : Nat) (offset : Int) :
    chunk_size = 256 * 1024 * 1024 ∧
    (∀ call ∈ (copy_file_contents pread length offset).2,
      call.src = offset + (call.dst : Int) ∧
      call.cnt = min (length - call.dst) chunk_size) ∧
    chainedReads pread (copy_file_contents pread length offset).2 := by
  refine ⟨rfl, ?_, copyLoopF_chained pread length offset (length + 1) 0⟩
  intro call hcall
  obtain ⟨h1, h2⟩ := copyLoopF_trace_shape pread length offset (length + 1) 0 call hcall
  refine ⟨h1, ?_⟩
  rw [h2]
  rcases Nat.lt_or_ge (length - call.dst) chunk_size with h | h
  · rw [if_pos h, Nat.min_eq_left (le_of_lt h)]
  · rw [if_neg (not_lt.mpr h), Nat.min_eq_right h]

/-- C7 counterexample: the copy-in loop over a 1 GiB length with an
always-complete read oracle issues four reads of 268435456 bytes each,
the 256 MiB chunk constant of the source, not the 226 MiB the claim
states. -/
theorem claim_C7_counterexample :
    chunk_size ≠ 226 * 1024 * 1024 ∧
    (copy_file_contents (fun _ c => (c : Int)) 1073741824 0).2 =
      [⟨0, 0, 268435456⟩, ⟨268435456, 268435456, 268435456⟩,
       ⟨536870912, 536870912, 268435456⟩, ⟨805306368, 805306368, 268435456⟩] ∧
    226 * 1024 * 1024 ≠ 268435456 :=
  ⟨by decide, by decide, by decide⟩

theorem claim_C7_inst :
    chunk_size = 256 * 1024 * 1024 ∧
    ((⟨0, 0, 268435456⟩ : ReadCall).src = 0 + (((⟨0, 0, 268435456⟩ : ReadCall).dst : Nat) : Int) ∧
     (⟨0, 0, 268435456⟩ : ReadCall).cnt =
       min (1073741824 - (⟨0, 0, 268435456⟩ : ReadCall).dst) chunk_size) :=
  ⟨(claim_C7 (fun _ c => (c : Int)) 1073741824 0).1,
   (claim_C7 (fun _ c => (c : Int)) 1073741824 0).2.1 ⟨0, 0, 268435456⟩ (by decide)⟩

end zen5_turbo

